import Mathlib

/-!
Verification of the Visor example MCP analyzer server
(`dist/examples/mcp/analyzer.py`): a line-delimited JSON-RPC style
request loop over standard streams.

The embedding mirrors the Python source.  JSON values decoded by the
standard `json` module are represented by `JValue`; since the JSON
codec itself is library code (not part of this repository), an input
line is represented by its decode outcome (`Line`): either a decode
failure with its message, or the decoded value.  Python exceptions
raised while handling a request are modelled by `Except String`,
carrying the exception text (`str(e)`).
-/

namespace Analyzer

/-- A JSON value as produced by the `json` decoder.  An `obj` holds the
fields of a decoded dict; the decoder yields dicts with distinct keys,
so association-list lookup models dict lookup. -/
inductive JValue where
  | null
  | bool (b : Bool)
  | num (n : Int)
  | str (s : String)
  | arr (xs : List JValue)
  | obj (fields : List (String × JValue))

/-- The Python type name of a decoded JSON value, as it appears in
exception messages such as AttributeError. -/
def pyTypeName : JValue → String
  | .null => "NoneType"
  | .bool _ => "bool"
  | .num _ => "int"
  | .str _ => "str"
  | .arr _ => "list"
  | .obj _ => "dict"

mutual
/-- Python `repr` of a decoded JSON value (single quotes around
strings, `None`/`True`/`False`, bracketed containers). -/
def pyRepr : JValue → String
  | .null => "None"
  | .bool true => "True"
  | .bool false => "False"
  | .num n => toString n
  | .str s => "\x27" ++ s ++ "\x27"
  | .arr xs => "[" ++ String.intercalate ", " (pyReprList xs) ++ "]"
  | .obj fs => "\x7b" ++ String.intercalate ", " (pyReprFields fs) ++ "\x7d"

def pyReprList : List JValue → List String
  | [] => []
  | x :: xs => pyRepr x :: pyReprList xs

def pyReprFields : List (String × JValue) → List String
  | [] => []
  | (k, v) :: fs => ("\x27" ++ k ++ "\x27: " ++ pyRepr v) :: pyReprFields fs
end

/-- Python `str` of a decoded JSON value, as used by f-string
interpolation: the string itself for `str`, `repr`-like otherwise. -/
def pyStr : JValue → String
  | .str s => s
  | v => pyRepr v

/-- Python `==` between a decoded JSON value and a string literal:
true exactly when the value is that string. -/
def pyEqStr (v : JValue) (s : String) : Bool :=
  match v with
  | .str t => t == s
  | _ => false

/-- The AttributeError message Python raises for `v.get(...)` when `v`
is not a dict. -/
def attrErrGet (v : JValue) : String :=
  "\x27" ++ pyTypeName v ++ "\x27 object has no attribute \x27get\x27"

/-- Embeds the Python expression `v.get(key, default)` (with `default`
being `None` for the one-argument form): returns the value stored under
`key`, or `default` when the key is absent; raises AttributeError when
`v` is not a dict. -/
def dictGet (v : JValue) (key : String) (default : JValue) : Except String JValue :=
  match v with
  | .obj fields => .ok ((fields.lookup key).getD default)
  | _ => .error (attrErrGet v)

/-- Association-list field access with a default, the pure core of
`dictGet` on a dict. -/
def fieldGetD (fields : List (String × JValue)) (key : String) (default : JValue) : JValue :=
  (fields.lookup key).getD default

/-- Whether a decoded JSON value is a dict. -/
def isDict : JValue → Bool
  | .obj _ => true
  | _ => false

/-- Whether a JSON value is an object carrying the given top-level key. -/
def hasKey (v : JValue) (key : String) : Bool :=
  match v with
  | .obj fields => (fields.lookup key).isSome
  | _ => false

/-- Top-level field lookup on a JSON object (`none` on non-objects). -/
def jGet (v : JValue) (key : String) : Option JValue :=
  match v with
  | .obj fields => fields.lookup key
  | _ => none

/-- Embeds `os.environ.get("ANALYSIS_LEVEL", "basic")` from
`CodeAnalyzer.__init__`; `env` is the value of the ANALYSIS_LEVEL
environment variable when set. -/
def analysisLevel (env : Option String) : String :=
  env.getD "basic"

/-- Embeds `CodeAnalyzer.analyze_complexity`: a constant metrics dict
echoing the file path and the analysis level. -/
def analyze_complexity (level : String) (file_path : JValue) : JValue :=
  .obj [("file", file_path),
        ("complexity", .obj [("cyclomatic", .num 5),
                             ("cognitive", .num 8),
                             ("lines_of_code", .num 150),
                             ("functions", .num 10)]),
        ("level", .str level)]

/-- Embeds `CodeAnalyzer.find_patterns`: two constant pattern records
whose locations interpolate the file path. -/
def find_patterns (file_path : JValue) : JValue :=
  .arr [.obj [("pattern", .str "singleton"),
              ("location", .str (pyStr file_path ++ ":45")),
              ("type", .str "design_pattern")],
        .obj [("pattern", .str "god_object"),
              ("location", .str (pyStr file_path ++ ":120")),
              ("type", .str "anti_pattern"),
              ("severity", .str "warning")]]

/-- Embeds `CodeAnalyzer.suggest_refactoring`: three constant strings. -/
def suggest_refactoring (_file_path : JValue) : JValue :=
  .arr [.str "Consider extracting method at line 45-60",
        .str "Duplicate code detected at lines 120 and 180",
        .str "Complex conditional at line 95 could be simplified"]

/-- Embeds `handle_request`.  Exception propagation of the Python code
is written out as matches on `Except`: `request.get` raises when the
decoded request is not a dict, `params.get('file')` raises when a
registered method is dispatched with a non-dict `params`. -/
def handle_request (env : Option String) (request : JValue) : Except String JValue :=
  match dictGet request "method" .null with
  | .error e => .error e
  | .ok method =>
    match dictGet request "params" (.obj []) with
    | .error e => .error e
    | .ok params =>
      let resultE : Except String JValue :=
        if pyEqStr method "analyze_complexity" then
          match dictGet params "file" .null with
          | .error e => .error e
          | .ok f => .ok (analyze_complexity (analysisLevel env) f)
        else if pyEqStr method "find_patterns" then
          match dictGet params "file" .null with
          | .error e => .error e
          | .ok f => .ok (find_patterns f)
        else if pyEqStr method "suggest_refactoring" then
          match dictGet params "file" .null with
          | .error e => .error e
          | .ok f => .ok (suggest_refactoring f)
        else
          .ok (.obj [("error", .str ("Unknown method: " ++ pyStr method))])
      match resultE with
      | .error e => .error e
      | .ok result =>
        match dictGet request "id" .null with
        | .error e => .error e
        | .ok rid =>
          .ok (.obj [("jsonrpc", .str "2.0"), ("id", rid), ("result", result)])

/-- Whether a method value is one of the three registered methods of
`handle_request` (matched in source order). -/
def isRegistered (method : JValue) : Bool :=
  pyEqStr method "analyze_complexity" ||
  pyEqStr method "find_patterns" ||
  pyEqStr method "suggest_refactoring"

/-- One input line of `main`, represented by its `json.loads` outcome:
a decode failure with the exception message, or the decoded value. -/
inductive Line where
  | malformed (msg : String)
  | parsed (v : JValue)

/-- The parse-error envelope built in the JSONDecodeError branch of
`main`. -/
def parseErrorResponse (msg : String) : JValue :=
  .obj [("jsonrpc", .str "2.0"), ("id", .null),
        ("error", .obj [("code", .num (-32700)),
                        ("message", .str ("Parse error: " ++ msg))])]

/-- The internal-error envelope built in the catch-all Exception branch
of `main`. -/
def internalErrorResponse (msg : String) : JValue :=
  .obj [("jsonrpc", .str "2.0"), ("id", .null),
        ("error", .obj [("code", .num (-32603)),
                        ("message", .str ("Internal error: " ++ msg))])]

/-- The body of one iteration of the `while` loop of `main` on a line
that was read: decode failure takes the JSONDecodeError branch, a
fault from `handle_request` takes the Exception branch, otherwise the
response of `handle_request` is written. -/
def processLine (env : Option String) : Line → JValue
  | .malformed msg => parseErrorResponse msg
  | .parsed request =>
    match handle_request env request with
    | .ok response => response
    | .error msg => internalErrorResponse msg

/-- An observable event of `main`: reading one input line, or writing
(and flushing) one response line. -/
inductive Event where
  | read (l : Line)
  | write (response : JValue)

/-- The event trace of `main` on a finite input stream: each iteration
reads one line and writes its response before the next read; the loop
breaks when `readline` returns no more data. -/
def serverTrace (env : Option String) : List Line → List Event
  | [] => []
  | l :: rest => .read l :: .write (processLine env l) :: serverTrace env rest

/-- One iteration of the `while` loop of `main` as a step on the
remaining input: `none` exactly when `readline` returned no data (the
`break`), otherwise the events of the iteration and the rest of the
stream. -/
def serverStep (env : Option String) : List Line → Option (List Event × List Line)
  | [] => none
  | l :: rest => some ([.read l, .write (processLine env l)], rest)

/-- The responses written during a trace, in order. -/
def writesOf : List Event → List JValue
  | [] => []
  | .read _ :: es => writesOf es
  | .write r :: es => r :: writesOf es

/-- The lines read during a trace, in order. -/
def readsOf : List Event → List Line
  | [] => []
  | .read l :: es => l :: readsOf es
  | .write _ :: es => readsOf es

/-- The output stream of `main`: the response lines written for a given
input stream, in order. -/
def responses (env : Option String) (inputs : List Line) : List JValue :=
  writesOf (serverTrace env inputs)

theorem responses_eq_map (env : Option String) (inputs : List Line) :
    responses env inputs = inputs.map (processLine env) := by
  induction inputs with
  | nil => rfl
  | cons l rest ih =>
    simp only [responses, serverTrace, writesOf, List.map] at *
    exact congrArg _ ih

theorem reads_serverTrace (env : Option String) (inputs : List Line) :
    readsOf (serverTrace env inputs) = inputs := by
  induction inputs with
  | nil => rfl
  | cons l rest ih =>
    simp only [serverTrace, readsOf] at *
    exact congrArg _ ih

/-- Claim C1: for every finite input stream the server writes exactly one
line of output per input line consumed, in the same order: the output
stream is the pointwise image of the input stream under the
per-iteration body, the lines read are exactly the input, and the trace
interleaves strictly, the response to line k being written before
line k+1 is read. -/
theorem spec_C1 (env : Option String) (inputs : List Line) :
    (responses env inputs).length = inputs.length
    ∧ responses env inputs = inputs.map (processLine env)
    ∧ readsOf (serverTrace env inputs) = inputs
    ∧ serverTrace env inputs =
        inputs.flatMap (fun l => [Event.read l, Event.write (processLine env l)]) := by
  refine ⟨?_, responses_eq_map env inputs, reads_serverTrace env inputs, ?_⟩
  · rw [responses_eq_map]
    exact inputs.length_map _
  · induction inputs with
    | nil => rfl
    | cons l rest ih =>
      simp only [serverTrace, List.flatMap_cons, List.cons_append, List.nil_append, ih]

/-- Claim C2: a line that fails JSON decoding produces exactly the
parse-error envelope, with id null, code -32700 and a message starting
with the text Parse error, and the loop goes on to process the
remaining lines. -/
theorem spec_C2 (env : Option String) (msg : String) (rest : List Line) :
    processLine env (.malformed msg) = parseErrorResponse msg
    ∧ parseErrorResponse msg =
        .obj [("jsonrpc", .str "2.0"), ("id", .null),
              ("error", .obj [("code", .num (-32700)),
                              ("message", .str ("Parse error: " ++ msg))])]
    ∧ serverTrace env (.malformed msg :: rest) =
        .read (.malformed msg) :: .write (parseErrorResponse msg) :: serverTrace env rest :=
  ⟨rfl, rfl, rfl⟩

/-- Claim C7: the loop stops exactly when readline yields no further
data: the step function is none precisely on the exhausted stream, an
empty input stream produces an empty trace (no output, no error), and
every finite input yields a finite trace of two events per line, so the
loop terminates. -/
theorem spec_C7 (env : Option String) (inputs : List Line) (l : Line) (rest : List Line) :
    serverTrace env [] = []
    ∧ responses env [] = []
    ∧ serverStep env [] = none
    ∧ (serverStep env (l :: rest)).isSome = true
    ∧ (serverTrace env inputs).length = 2 * inputs.length := by
  refine ⟨rfl, rfl, rfl, rfl, ?_⟩
  induction inputs with
  | nil => rfl
  | cons x xs ih =>
    simp only [serverTrace, List.length_cons, ih]
    omega

theorem pyEqStr_eq (v : JValue) (s : String) (h : pyEqStr v s = true) : v = .str s := by
  cases v <;> simp_all [pyEqStr]

theorem dictGet_obj (fields : List (String × JValue)) (key : String) (d : JValue) :
    dictGet (.obj fields) key d = .ok (fieldGetD fields key d) := rfl

theorem isDict_dictGet_ok (v : JValue) (key : String) (d : JValue) (h : isDict v = true) :
    ∃ w, dictGet v key d = .ok w := by
  cases v <;> simp_all [isDict, dictGet]

theorem handle_request_ok_shape (env : Option String) (request r : JValue)
    (h : handle_request env request = .ok r) :
    ∃ rid result,
      r = JValue.obj [("jsonrpc", .str "2.0"), ("id", rid), ("result", result)] := by
  simp only [handle_request] at h
  repeat' split at h
  all_goals cases h
  all_goals exact ⟨_, _, rfl⟩

/-- Claim C3: a parsed request object whose method is absent, of
non-string type, or an unregistered string gets a success envelope (no
top-level error field) whose result is an object carrying the text
Unknown method followed by the method value, with the request id
echoed; handle_request does not fault on this path. -/
theorem spec_C3 (env : Option String) (fields : List (String × JValue))
    (h : isRegistered (fieldGetD fields "method" .null) = false) :
    handle_request env (.obj fields) =
      .ok (.obj [("jsonrpc", .str "2.0"), ("id", fieldGetD fields "id" .null),
                 ("result", .obj [("error",
                    .str ("Unknown method: " ++ pyStr (fieldGetD fields "method" .null)))])]) := by
  simp only [isRegistered, Bool.or_eq_false_iff] at h
  obtain ⟨⟨h1, h2⟩, h3⟩ := h
  simp only [handle_request, dictGet_obj, h1, h2, h3, Bool.false_eq_true, if_false]

/-- Claim C3 witness: the unregistered method nope with id 2. -/
theorem spec_C3_witness :
    isRegistered (fieldGetD [("id", JValue.num 2), ("method", JValue.str "nope")] "method" .null)
      = false
    ∧ handle_request none (.obj [("id", .num 2), ("method", .str "nope")]) =
        .ok (.obj [("jsonrpc", .str "2.0"), ("id", .num 2),
                   ("result", .obj [("error", .str "Unknown method: nope")])]) :=
  ⟨by decide, spec_C3 none [("id", .num 2), ("method", .str "nope")] (by decide)⟩

/-- Claim C4: a well-formed request (a dict whose params field, when
present, is a dict) with a registered method gets a success envelope
whose id is exactly the request id, a null id standing in when the id
field is absent. -/
theorem spec_C4 (env : Option String) (fields : List (String × JValue))
    (hm : isRegistered (fieldGetD fields "method" .null) = true)
    (hp : isDict (fieldGetD fields "params" (.obj [])) = true) :
    ∃ result, handle_request env (.obj fields) =
      .ok (.obj [("jsonrpc", .str "2.0"), ("id", fieldGetD fields "id" .null),
                 ("result", result)]) := by
  obtain ⟨f, hf⟩ := isDict_dictGet_ok (fieldGetD fields "params" (.obj [])) "file" .null hp
  simp only [isRegistered, Bool.or_eq_true] at hm
  rcases hm with (h1 | h2) | h3
  · exact ⟨analyze_complexity (analysisLevel env) f,
      by simp [handle_request, dictGet_obj, pyEqStr_eq _ _ h1, pyEqStr, hf]⟩
  · exact ⟨find_patterns f,
      by simp [handle_request, dictGet_obj, pyEqStr_eq _ _ h2, pyEqStr, hf]⟩
  · exact ⟨suggest_refactoring f,
      by simp [handle_request, dictGet_obj, pyEqStr_eq _ _ h3, pyEqStr, hf]⟩

/-- Claim C4 witness: a registered method with id 1 and a dict params. -/
theorem spec_C4_witness :
    isRegistered (fieldGetD [("id", JValue.num 1), ("method", JValue.str "analyze_complexity"),
        ("params", JValue.obj [("file", JValue.str "a.py")])] "method" .null) = true
    ∧ isDict (fieldGetD [("id", JValue.num 1), ("method", JValue.str "analyze_complexity"),
        ("params", JValue.obj [("file", JValue.str "a.py")])] "params" (.obj [])) = true
    ∧ ∃ result, handle_request none
        (.obj [("id", .num 1), ("method", .str "analyze_complexity"),
               ("params", .obj [("file", .str "a.py")])]) =
        .ok (.obj [("jsonrpc", .str "2.0"), ("id", .num 1), ("result", result)]) :=
  ⟨by decide, by decide,
   spec_C4 none
     [("id", .num 1), ("method", .str "analyze_complexity"),
      ("params", .obj [("file", .str "a.py")])] (by decide) (by decide)⟩

/-- A request whose handler invocation faults: the id 7 was parsed, the
method is registered, but params is the number 3, so `params.get`
raises AttributeError inside the try block of main. -/
def C5request : List (String × JValue) :=
  [("id", .num 7), ("method", .str "analyze_complexity"), ("params", .num 3)]

/-- Claim C5 counterexample: on a handler fault, the claim says the
response id is the request id when one was parsed; here the request
carried id 7, the handler faulted, and the response id is null, not 7
(the source hardcodes None on this path). -/
theorem spec_C5_counterexample :
    jGet (.obj C5request) "id" = some (.num 7)
    ∧ processLine none (.parsed (.obj C5request)) =
        internalErrorResponse "\x27int\x27 object has no attribute \x27get\x27"
    ∧ jGet (processLine none (.parsed (.obj C5request))) "id" = some .null
    ∧ JValue.null ≠ JValue.num 7 :=
  ⟨rfl, rfl, rfl, fun h => JValue.noConfusion h⟩

/-- Claim C5 (amended): when the handler invocation faults, the server
catches the fault and emits an internal-error envelope with code
-32603, a message starting with the text Internal error, and id always
null, even when the request carried an id; the loop then continues
with the next line. -/
theorem spec_C5_amended (env : Option String) (request : JValue) (msg : String)
    (rest : List Line) (h : handle_request env request = .error msg) :
    processLine env (.parsed request) = internalErrorResponse msg
    ∧ internalErrorResponse msg =
        .obj [("jsonrpc", .str "2.0"), ("id", .null),
              ("error", .obj [("code", .num (-32603)),
                              ("message", .str ("Internal error: " ++ msg))])]
    ∧ serverTrace env (.parsed request :: rest) =
        .read (.parsed request) :: .write (internalErrorResponse msg) :: serverTrace env rest := by
  have hp : processLine env (.parsed request) = internalErrorResponse msg := by
    simp only [processLine, h]
  refine ⟨hp, rfl, ?_⟩
  simp only [serverTrace, hp]

/-- Claim C5 witness: the amended claim at the faulting request with
id 7. -/
theorem spec_C5_amended_witness :
    handle_request none (.obj C5request) =
      .error "\x27int\x27 object has no attribute \x27get\x27"
    ∧ processLine none (.parsed (.obj C5request)) =
        internalErrorResponse "\x27int\x27 object has no attribute \x27get\x27" :=
  ⟨rfl,
   (spec_C5_amended none (.obj C5request)
     "\x27int\x27 object has no attribute \x27get\x27" [] rfl).1⟩

/-- A request with a registered method and a non-dict params field. -/
def C6request : List (String × JValue) :=
  [("method", .str "analyze_complexity"), ("params", .num 5)]

/-- Claim C6 counterexample: with params present as the number 5, the
extracted params is 5 itself, not the empty mapping the claim says is
substituted, and the request fails (the handler invocation raises),
contradicting that a non-object params never causes a failure. -/
theorem spec_C6_counterexample :
    dictGet (.obj C6request) "params" (.obj []) = .ok (.num 5)
    ∧ JValue.num 5 ≠ JValue.obj []
    ∧ handle_request none (.obj C6request) =
        .error "\x27int\x27 object has no attribute \x27get\x27" :=
  ⟨rfl, fun h => JValue.noConfusion h, rfl⟩

/-- Claim C6 (amended): dispatch takes params from the request whenever
the field is present, whatever its type, and substitutes the empty
mapping only when the field is absent; a present non-dict params is
passed through and makes the handler invocation fault for every
registered method. -/
theorem spec_C6_amended (env : Option String) (fields : List (String × JValue)) :
    dictGet (.obj fields) "params" (.obj []) = .ok (fieldGetD fields "params" (.obj []))
    ∧ (fields.lookup "params" = none → fieldGetD fields "params" (.obj []) = .obj [])
    ∧ (isRegistered (fieldGetD fields "method" .null) = true →
        isDict (fieldGetD fields "params" (.obj [])) = false →
        ∃ msg, handle_request env (.obj fields) = .error msg) := by
  refine ⟨rfl, ?_, ?_⟩
  · intro habs
    simp [fieldGetD, habs]
  · intro hm hp
    have hfile : dictGet (fieldGetD fields "params" (.obj [])) "file" .null =
        .error (attrErrGet (fieldGetD fields "params" (.obj []))) := by
      cases hv : fieldGetD fields "params" (.obj []) <;> simp_all [isDict, dictGet]
    simp only [isRegistered, Bool.or_eq_true] at hm
    rcases hm with (h1 | h2) | h3
    · exact ⟨attrErrGet (fieldGetD fields "params" (.obj [])),
        by simp [handle_request, dictGet_obj, pyEqStr_eq _ _ h1, pyEqStr, hfile]⟩
    · exact ⟨attrErrGet (fieldGetD fields "params" (.obj [])),
        by simp [handle_request, dictGet_obj, pyEqStr_eq _ _ h2, pyEqStr, hfile]⟩
    · exact ⟨attrErrGet (fieldGetD fields "params" (.obj [])),
        by simp [handle_request, dictGet_obj, pyEqStr_eq _ _ h3, pyEqStr, hfile]⟩

/-- Claim C6 witness: the amended claim at a request with a registered
method and params equal to the number 5. -/
theorem spec_C6_amended_witness :
    isRegistered (fieldGetD C6request "method" .null) = true
    ∧ isDict (fieldGetD C6request "params" (.obj [])) = false
    ∧ ∃ msg, handle_request none (.obj C6request) = .error msg :=
  ⟨by decide, by decide, (spec_C6_amended none C6request).2.2 (by decide) (by decide)⟩

/-- Claim C8: every response written for a line carries a top-level
result field or a top-level error field, never both: the success path
emits only result, the parse-error and internal-error paths emit only
error. -/
theorem spec_C8 (env : Option String) (l : Line) :
    hasKey (processLine env l) "result" = !(hasKey (processLine env l) "error") := by
  cases l with
  | malformed msg => rfl
  | parsed request =>
    simp only [processLine]
    cases hr : handle_request env request with
    | error msg => rfl
    | ok response =>
      obtain ⟨rid, result, rfl⟩ := handle_request_ok_shape env request response hr
      rfl

/-- Claim C10: a line decoding to a non-dict JSON value makes the field
access in handle_request raise AttributeError, and the server answers
with the internal-error envelope, code -32603 and id null, not the
parse-error one, then continues the loop. -/
theorem spec_C10 (env : Option String) (v : JValue) (rest : List Line)
    (h : isDict v = false) :
    handle_request env v = .error (attrErrGet v)
    ∧ processLine env (.parsed v) = internalErrorResponse (attrErrGet v)
    ∧ internalErrorResponse (attrErrGet v) =
        .obj [("jsonrpc", .str "2.0"), ("id", .null),
              ("error", .obj [("code", .num (-32603)),
                              ("message", .str ("Internal error: " ++ attrErrGet v))])]
    ∧ serverTrace env (.parsed v :: rest) =
        .read (.parsed v) :: .write (internalErrorResponse (attrErrGet v)) :: serverTrace env rest := by
  have h1 : dictGet v "method" .null = .error (attrErrGet v) := by
    cases v <;> simp_all [dictGet, isDict]
  have h2 : handle_request env v = .error (attrErrGet v) := by
    simp only [handle_request, h1]
  have hp : processLine env (.parsed v) = internalErrorResponse (attrErrGet v) := by
    simp only [processLine, h2]
  refine ⟨h2, hp, rfl, ?_⟩
  simp only [serverTrace, hp]

/-- Claim C10 witness: the JSON number 42 on a line by itself. -/
theorem spec_C10_witness :
    isDict (JValue.num 42) = false
    ∧ handle_request none (JValue.num 42) = .error (attrErrGet (JValue.num 42))
    ∧ processLine none (.parsed (.num 42)) = internalErrorResponse (attrErrGet (.num 42)) :=
  ⟨by decide, (spec_C10 none (.num 42) [] (by decide)).1,
   (spec_C10 none (.num 42) [] (by decide)).2.1⟩

/-- Claim C9: processing is deterministic and free of cross-request
state: the response to a line does not depend on its position in the
stream, so sending the same request twice yields two structurally
identical response lines. -/
theorem spec_C9 (env : Option String) (l : Line) (pre post : List Line) :
    responses env (pre ++ l :: post) =
      responses env pre ++ processLine env l :: responses env post
    ∧ ∃ r, responses env [l, l] = [r, r] := by
  constructor
  · rw [responses_eq_map, responses_eq_map, responses_eq_map, List.map_append, List.map_cons]
  · exact ⟨processLine env l, rfl⟩

end Analyzer
